import Mathlib

/-!
Shallow embedding of the translation-job lifecycle of the
`translator_app_with_aws` repository: server-side validation, orchestration
and persistence (`src/lambda_code/lambda_function.py`), and client-side
batching, result polling, the history ledger and the progress interpolation
(`src/cli/interactive_cli.py`, `src/cli/translation_cli.py`,
`src/cli/translation_gui.py`).  Network and storage nondeterminism is
resolved by explicit outcome parameters.
-/

namespace Translator

/-- Outcome function of the external translation backend: given the source
language, the stripped sentence text and the target language, either the
translated text or the failure reason of that call. -/
abbrev Backend := String → String → String → Except String String

/-- Error-marker string appended by `process_translations` when one backend
call fails (`lambda_function.py`, line 240). -/
def errorMarker (e : String) : String := "[Translation Error: " ++ e ++ "]"

/-- Python's `str.strip()`: removes whitespace from both ends of the
string. -/
def pyStrip (s : String) : String :=
  String.mk
    (((s.data.dropWhile Char.isWhitespace).reverse.dropWhile
      Char.isWhitespace).reverse)

/-- Python's `str.startswith(pre)`: whether `pre` is a character-level
initial segment of `s`. -/
def pyStartsWith (s pre : String) : Bool :=
  pre.data.isPrefixOf s.data

/-- Translation of one sentence into one target language: the backend is
invoked on the stripped sentence, and a failure is replaced by the error
marker (`lambda_function.py`, lines 223-240). -/
def translateOne (backend : Backend) (src tgt : String) (s : String) : String :=
  match backend src (pyStrip s) tgt with
  | Except.ok t => t
  | Except.error e => errorMarker e

/-- Per-language pass of the orchestrator: sentences translated in order
(`lambda_function.py`, lines 221-240). -/
def translateAll (backend : Backend) (src tgt : String) (sentences : List String) :
    List String :=
  sentences.map (translateOne backend src tgt)

/-- Association list with Python-dict semantics, used for the translations
mapping: setting a key replaces the value in place when the key is present
(insertion order preserved), otherwise appends the key at the end. -/
def dictSet : List (String × List String) → String → List String →
    List (String × List String)
  | [], k, v => [(k, v)]
  | (k', v') :: rest, k, v =>
      if k' = k then (k, v) :: rest else (k', v') :: dictSet rest k v

/-- Lookup in the translations mapping. -/
def dlookup (d : List (String × List String)) (k : String) : Option (List String) :=
  (d.find? (fun p => p.1 == k)).map Prod.snd

/-- Lookup in the translations mapping, defaulting to the empty sequence. -/
def dGet (d : List (String × List String)) (k : String) : List String :=
  (dlookup d k).getD []

/-- Orchestrator `process_translations` (`lambda_function.py`, lines
212-242): for each target language in order the translations dict is
assigned the full per-sentence result list for that language. -/
def process_translations (backend : Backend) (src : String)
    (target_languages sentences : List String) : List (String × List String) :=
  target_languages.foldl
    (fun d tgt => dictSet d tgt (translateAll backend src tgt sentences)) []

/-- First-occurrence deduplication of a key list: the key order of a Python
dict built by repeated assignment over the list. -/
def dfirst : List String → List String
  | [] => []
  | x :: xs => x :: (dfirst xs).filter (fun y => y != x)

/-- Per-sentence checks of `validate_input`, in source order
(`lambda_function.py`, lines 204-208): emptiness after stripping is checked
before the length bound. -/
def sentenceError (s : String) : Option String :=
  if (pyStrip s).length = 0 then some "All sentences must be non-empty strings"
  else if s.length > 5000 then some "Each sentence must be less than 5000 characters"
  else none

/-- Validator `validate_input` (`lambda_function.py`, lines 178-210):
`none` when the request is valid, otherwise the message of the first
violated rule, checked in source order. -/
def validate_input (source_language : String)
    (target_languages sentences : List String) : Option String :=
  if source_language.length ≠ 2 then
    some "Source language must be a 2-character language code"
  else if target_languages.length = 0 then
    some "Target languages must be a non-empty list"
  else if target_languages.length > 10 then
    some "Maximum 10 target languages allowed"
  else if target_languages.any (fun l => l.length != 2) then
    some "All target languages must be 2-character language codes"
  else if sentences.length = 0 then
    some "Sentences must be a non-empty list"
  else if sentences.length > 100 then
    some "Maximum 100 sentences allowed per request"
  else sentences.findSome? sentenceError

/-- Outcome of one durable-storage write, resolving the nondeterminism of a
single S3 put call. -/
abbrev WriteOutcome := Except String Unit

/-- Audit write `store_input_request` (`lambda_function.py`, lines 137-176):
every storage failure is swallowed and the empty string is returned in place
of the URL, so this write can never fail the job. -/
def store_input_request (w : WriteOutcome) (url : String) : String :=
  match w with
  | Except.ok _ => url
  | Except.error _ => ""

/-- Result write `store_result_in_s3` (`lambda_function.py`, lines 244-274):
a storage failure is re-raised and propagates to the caller. -/
def store_result_in_s3 (w : WriteOutcome) (url : String) : Except String String :=
  match w with
  | Except.ok _ => Except.ok url
  | Except.error e => Except.error e

/-- Parsed translation request (`source_language`, `target_languages`,
`sentences`), the shape consumed by the handler once the body is parsed and
the three required fields are present. -/
structure TranslationRequest where
  source_language : String
  target_languages : List String
  sentences : List String
deriving Repr, DecidableEq

/-- Structured view of the handler's HTTP response: either an error response
carrying a status code and message, or the 200 success response with its
summary fields (`lambda_function.py`, lines 98-127 and 276-296). -/
inductive HandlerResult where
  | errorResp (code : Nat) (message : String)
  | successResp (translation_id : String) (sentences_processed : Nat)
      (translations_generated : Nat) (translations : List (String × List String))
deriving Repr, DecidableEq

/-- HTTP status code of a handler result. -/
def HandlerResult.statusCode : HandlerResult → Nat
  | .errorResp c _ => c
  | .successResp _ _ _ _ => 200

/-- Success flag of a handler result. -/
def HandlerResult.isSuccess : HandlerResult → Bool
  | .errorResp _ _ => false
  | .successResp _ _ _ _ => true

/-- Handler pipeline `lambda_handler` (`lambda_function.py`, lines 23-135)
for an already-parsed request: validation, best-effort input audit write
(whose outcome is discarded), orchestration, then the result write; an
exception raised by the result write reaches the outer handler and becomes
the 500 "Internal server error" response. -/
def lambda_handler (backend : Backend) (tid inputUrl outputUrl : String)
    (inputWrite outputWrite : WriteOutcome) (req : TranslationRequest) :
    HandlerResult :=
  match validate_input req.source_language req.target_languages req.sentences with
  | some err => HandlerResult.errorResp 400 err
  | none =>
    let _auditUrl := store_input_request inputWrite inputUrl
    let translations :=
      process_translations backend req.source_language req.target_languages req.sentences
    match store_result_in_s3 outputWrite outputUrl with
    | Except.error _ => HandlerResult.errorResp 500 "Internal server error"
    | Except.ok _ =>
        HandlerResult.successResp tid req.sentences.length
          ((translations.map (fun p => p.2.length)).sum) translations

/-- Summary field `translations_generated` of the success response
(`lambda_function.py`, line 123): the sum of the per-key sequence lengths of
the translations dict. -/
def translations_generated (backend : Backend) (src : String)
    (target_languages sentences : List String) : Nat :=
  ((process_translations backend src target_languages sentences).map
    (fun p => p.2.length)).sum

/-- Chunking of a list into consecutive slices of size `b + 1`, the effect of
the Python loop `for i in range(0, len(sentences), batch_size)` with slice
`sentences[i:i + batch_size]` for a positive batch size
(`interactive_cli.py`, lines 601-602; `translation_cli.py`, lines 432-433). -/
def chunksOfPos (b : Nat) : List String → List (List String)
  | [] => []
  | x :: xs => (x :: xs.take b) :: chunksOfPos b (xs.drop b)
termination_by l => l.length
decreasing_by
  simp only [List.length_drop, List.length_cons]
  omega

/-- Chunking for an arbitrary batch size; a batch size of zero raises in
Python, so it is mapped to the empty chunk list and excluded by the claims. -/
def chunksOf (batchSize : Nat) (l : List String) : List (List String) :=
  match batchSize with
  | 0 => []
  | b + 1 => chunksOfPos b l

/-- Accumulation step of `_translate_in_batches` for one chunk result
(`interactive_cli.py`, lines 621-624): for each target language in order,
if that language is a key of the chunk result, the accumulator's sequence
for it is extended by the chunk's sequence. -/
def extendAll : List String → List (String × List String) →
    List (String × List String) → List (String × List String)
  | [], _, acc => acc
  | lang :: rest, chunkResult, acc =>
      extendAll rest chunkResult
        (if (chunkResult.find? (fun p => p.1 == lang)).isSome then
          dictSet acc lang (dGet acc lang ++ dGet chunkResult lang)
        else acc)

/-- Batch submission `_translate_in_batches` (`interactive_cli.py`, lines
591-657): the accumulator starts as the empty sequence per target language,
each chunk is submitted to the server orchestrator in order, and each chunk
result is folded in by `extendAll`. -/
def translate_in_batches (backend : Backend) (src : String)
    (target_languages sentences : List String) (batchSize : Nat) :
    List (String × List String) :=
  (chunksOf batchSize sentences).foldl
    (fun acc c => extendAll target_languages
      (process_translations backend src target_languages c) acc)
    ((dfirst target_languages).map (fun t => (t, ([] : List String))))

/-- Outcome of one S3 read during polling: either the object does not exist
yet, or a result document carrying a (possibly empty) translations
mapping. -/
inductive ReadOutcome where
  | noSuchKey
  | doc (translations : List (String × List String))
deriving Repr, DecidableEq

/-- Outcome of the polling loop: a non-empty translations mapping found on
some attempt, or exhaustion of the attempt budget; both record the number of
read attempts performed. -/
inductive PollOutcome where
  | found (attemptsUsed : Nat) (translations : List (String × List String))
  | timedOut (attemptsUsed : Nat)
deriving Repr, DecidableEq

/-- Polling loop body: `attempt` is the index of the next read, `remaining`
the attempts left in the budget. -/
def pollLoop (reads : Nat → ReadOutcome) : Nat → Nat → PollOutcome
  | _, 0 => PollOutcome.timedOut 0
  | attempt, r + 1 =>
      match reads attempt with
      | ReadOutcome.doc ts =>
          if ts.isEmpty then
            match pollLoop reads (attempt + 1) r with
            | PollOutcome.found n ts' => PollOutcome.found (n + 1) ts'
            | PollOutcome.timedOut n => PollOutcome.timedOut (n + 1)
          else PollOutcome.found 1 ts
      | ReadOutcome.noSuchKey =>
          match pollLoop reads (attempt + 1) r with
          | PollOutcome.found n ts' => PollOutcome.found (n + 1) ts'
          | PollOutcome.timedOut n => PollOutcome.timedOut (n + 1)

/-- Result poller of the interactive CLI (`interactive_cli.py`, lines
517-527): a bounded loop of S3 reads that breaks out as soon as a document
with a non-empty translations mapping is read, treats a missing object or an
empty mapping as transient, and falls through after the budget without
raising. -/
def pollS3 (reads : Nat → ReadOutcome) (budget : Nat) : PollOutcome :=
  pollLoop reads 0 budget

/-- Attempt budget of the interactive CLI poller, `for _ in range(30)`
(`interactive_cli.py`, line 517). -/
def cliPollBudget : Nat := 30

/-- History record of the client-side ledger (`translation_cli.py`, lines
373-381; only the fields the claims mention are modelled). -/
structure HistoryRecord where
  translation_id : String
  timestamp : String
  source_lang : String
  target_langs : List String
  sentence_count : Nat
deriving Repr, DecidableEq

/-- Ledger append `_save_to_history` (`translation_cli.py`, lines 368-390;
identical in `interactive_cli.py`, lines 809-831): append the record, then
keep only the last 100 entries. -/
def save_to_history (history : List HistoryRecord) (record : HistoryRecord) :
    List HistoryRecord :=
  let h := history ++ [record]
  if h.length > 100 then h.drop (h.length - 100) else h

/-- Ledger lookup `lookup_translation` (`translation_gui.py`, lines
1530-1565): the history list is scanned in stored (append) order and the
scan stops at the first record whose job id starts with the given string. -/
def lookup_translation (history : List HistoryRecord) (pre : String) :
    Option HistoryRecord :=
  history.find? (fun r => pyStartsWith r.translation_id pre)

/-- Modelled from the spec: the History Ledger `find` operation is described
as returning the most recent record whose job id starts with the given
string — the latest match in append order. -/
def mostRecentMatch (history : List HistoryRecord) (pre : String) :
    Option HistoryRecord :=
  history.reverse.find? (fun r => pyStartsWith r.translation_id pre)

/-- Progress interpolation of `_animate_progress` (`translation_cli.py`,
lines 287-295): the displayed percentage after `elapsed` seconds out of an
`estimated` duration. -/
def progressValue (elapsed estimated : ℚ) : ℚ :=
  min 95 (elapsed / estimated * 100)

/-- Progress value assigned on confirmed completion, `progress_bar.n = 100`
(`translation_cli.py`, line 150). -/
def completionProgress : ℚ := 100

/-! Helper lemmas about the dict operations and the orchestrator fold. -/

lemma beq_of_eq_str {a b : String} (h : a = b) : (a == b) = true :=
  beq_iff_eq.mpr h

lemma beq_false_of_ne_str {a b : String} (h : ¬a = b) : (a == b) = false :=
  beq_eq_false_iff_ne.mpr h

lemma find?_dictSet (d : List (String × List String)) (k v k') :
    (dictSet d k v).find? (fun p => p.1 == k') =
      if k' = k then some (k, v) else d.find? (fun p => p.1 == k') := by
  induction d with
  | nil =>
      by_cases h : k' = k
      · simp [dictSet, List.find?_cons, h, beq_of_eq_str rfl]
      · simp [dictSet, List.find?_cons, h,
          beq_false_of_ne_str (fun hh => h hh.symm)]
  | cons a rest ih =>
      obtain ⟨ak, av⟩ := a
      by_cases hak : ak = k
      · subst hak
        by_cases h : k' = ak
        · simp [dictSet, List.find?_cons, h, beq_of_eq_str rfl]
        · simp [dictSet, List.find?_cons, h,
            beq_false_of_ne_str (fun hh => h hh.symm)]
      · by_cases h : k' = ak
        · subst h
          simp [dictSet, hak, List.find?_cons, Ne.symm hak,
            beq_of_eq_str rfl]
        · simp [dictSet, hak, List.find?_cons, Ne.symm h, ih,
            beq_false_of_ne_str (fun hh => h hh.symm)]

lemma dlookup_dictSet (d : List (String × List String)) (k v k') :
    dlookup (dictSet d k v) k' = if k' = k then some v else dlookup d k' := by
  by_cases h : k' = k <;> simp [dlookup, find?_dictSet, h]

lemma dictSet_map_self (l : List String) (m : String → List String) (k : String) :
    dictSet (l.map (fun t => (t, m t))) k (m k) =
      (if k ∈ l then l else l ++ [k]).map (fun t => (t, m t)) := by
  induction l with
  | nil => simp [dictSet]
  | cons x xs ih =>
      by_cases hx : x = k
      · subst hx
        simp [dictSet]
      · simp only [List.map_cons, dictSet, hx, if_false, ih]
        by_cases hk : k ∈ xs
        · simp [hk, Ne.symm hx]
        · simp [hk, Ne.symm hx, hx]

lemma mem_dfirst {a : String} {l : List String} : a ∈ dfirst l ↔ a ∈ l := by
  induction l with
  | nil => simp [dfirst]
  | cons x xs ih =>
      by_cases hx : a = x
      · simp [dfirst, hx]
      · simp [dfirst, hx, List.mem_filter, ih, bne_iff_ne]

lemma nodup_dfirst (l : List String) : (dfirst l).Nodup := by
  induction l with
  | nil => simp [dfirst]
  | cons x xs ih =>
      refine List.Nodup.cons ?_ (ih.filter _)
      intro hx
      rcases List.mem_filter.mp hx with ⟨_, hne⟩
      simp at hne

lemma dfirst_eq_self {l : List String} (h : l.Nodup) : dfirst l = l := by
  induction l with
  | nil => rfl
  | cons x xs ih =>
      rcases List.nodup_cons.mp h with ⟨hx, hxs⟩
      rw [dfirst, ih hxs, List.filter_eq_self.mpr]
      intro y hy
      simp only [bne_iff_ne, ne_eq, decide_eq_true_eq]
      exact fun hyx => hx (hyx ▸ hy)

lemma dfirst_append_singleton (U : List String) (t : String) :
    dfirst (U ++ [t]) = if t ∈ U then dfirst U else dfirst U ++ [t] := by
  induction U with
  | nil => simp [dfirst]
  | cons x xs ih =>
      show dfirst (x :: (xs ++ [t])) = _
      rw [dfirst, ih]
      by_cases ht : t ∈ xs
      · simp [ht, dfirst]
      · by_cases htx : t = x
        · subst htx
          simp [ht, dfirst, List.filter_append]
        · simp [ht, htx, dfirst, List.filter_append, Ne.symm htx,
            bne_iff_ne, htx]

lemma foldl_dictSet_entries (m : String → List String) (T U : List String) :
    T.foldl (fun d tgt => dictSet d tgt (m tgt))
        ((dfirst U).map (fun t => (t, m t)))
      = (dfirst (U ++ T)).map (fun t => (t, m t)) := by
  induction T generalizing U with
  | nil => simp
  | cons t ts ih =>
      rw [List.foldl_cons, dictSet_map_self (dfirst U) m t]
      have hmem : t ∈ dfirst U ↔ t ∈ U := mem_dfirst
      have hstep : (if t ∈ dfirst U then dfirst U else dfirst U ++ [t])
          = dfirst (U ++ [t]) := by
        rw [dfirst_append_singleton]
        by_cases h : t ∈ U <;> simp [h, hmem]
      rw [hstep, ih (U ++ [t]), List.append_assoc]
      rfl

lemma process_translations_eq (backend : Backend) (src : String)
    (T S : List String) :
    process_translations backend src T S
      = (dfirst T).map (fun t => (t, translateAll backend src t S)) := by
  have h := foldl_dictSet_entries (fun t => translateAll backend src t S) T []
  simpa [process_translations, dfirst] using h

lemma dlookup_map_entries (l : List String) (m : String → List String)
    (k : String) :
    dlookup (l.map (fun t => (t, m t))) k
      = if k ∈ l then some (m k) else none := by
  induction l with
  | nil => simp [dlookup]
  | cons x xs ih =>
      by_cases hx : x = k
      · subst hx
        simp [dlookup, List.find?_cons]
      · by_cases hk : k ∈ xs <;>
          simp [dlookup, List.find?_cons, hx, Ne.symm hx, hk] <;>
          simpa [dlookup, hk] using ih

lemma dlookup_process (backend : Backend) (src : String) (T S : List String)
    (lang : String) :
    dlookup (process_translations backend src T S) lang
      = if lang ∈ T then some (translateAll backend src lang S) else none := by
  rw [process_translations_eq, dlookup_map_entries]
  by_cases h : lang ∈ T <;> simp [h, mem_dfirst]

/-! Helper lemmas about chunking, batch accumulation and polling. -/

lemma chunksOfPos_join (b : Nat) (l : List String) :
    (chunksOfPos b l).flatten = l := by
  induction l using chunksOfPos.induct b with
  | case1 => simp [chunksOfPos]
  | case2 x xs ih => simp [chunksOfPos, ih]

lemma chunksOf_join {batchSize : Nat} (hB : 0 < batchSize) (l : List String) :
    (chunksOf batchSize l).flatten = l := by
  match batchSize, hB with
  | b + 1, _ => exact chunksOfPos_join b l

lemma dGet_dictSet (d : List (String × List String)) (k v k') :
    dGet (dictSet d k v) k' = if k' = k then v else dGet d k' := by
  by_cases h : k' = k <;> simp [dGet, dlookup_dictSet, h]

lemma dGet_map_entries (l : List String) (m : String → List String)
    (k : String) :
    dGet (l.map (fun t => (t, m t))) k = if k ∈ l then m k else [] := by
  by_cases h : k ∈ l <;> simp [dGet, dlookup_map_entries, h]

lemma dGet_process (backend : Backend) (src : String) (T S : List String)
    (lang : String) :
    dGet (process_translations backend src T S) lang
      = if lang ∈ T then translateAll backend src lang S else [] := by
  by_cases h : lang ∈ T <;> simp [dGet, dlookup_process, h]

lemma find?_process_isSome (backend : Backend) (src : String)
    (T S : List String) {lang : String} (h : lang ∈ T) :
    ((process_translations backend src T S).find?
      (fun p => p.1 == lang)).isSome = true := by
  have := dlookup_process backend src T S lang
  rw [if_pos h] at this
  have h2 : (dlookup (process_translations backend src T S) lang).isSome = true := by
    rw [this]; rfl
  simpa [dlookup, Option.isSome_map] using h2

lemma dGet_extendAll {T : List String} (hT : T.Nodup)
    (ch : List (String × List String))
    (hch : ∀ l ∈ T, (ch.find? (fun p => p.1 == l)).isSome = true)
    (acc : List (String × List String)) (lang : String) :
    dGet (extendAll T ch acc) lang
      = if lang ∈ T then dGet acc lang ++ dGet ch lang else dGet acc lang := by
  induction T generalizing acc with
  | nil => simp [extendAll]
  | cons t ts ih =>
      rcases List.nodup_cons.mp hT with ⟨htts, hts⟩
      have hstep : extendAll (t :: ts) ch acc
          = extendAll ts ch (dictSet acc t (dGet acc t ++ dGet ch t)) := by
        rw [extendAll, if_pos (hch t (List.mem_cons_self t ts))]
      rw [hstep, ih hts (fun l hl => hch l (List.mem_cons_of_mem t hl))]
      by_cases hmem : lang ∈ ts
      · have hne : ¬lang = t := fun hh => htts (hh ▸ hmem)
        simp [hmem, hne, dGet_dictSet, List.mem_cons]
      · by_cases heq : lang = t
        · subst heq
          simp [hmem, dGet_dictSet, List.mem_cons]
        · simp [hmem, heq, dGet_dictSet, List.mem_cons]

lemma dGet_foldl_chunks (backend : Backend) (src : String) {T : List String}
    (hT : T.Nodup) (cs : List (List String))
    (acc : List (String × List String)) (lang : String) :
    dGet (cs.foldl (fun acc c => extendAll T
        (process_translations backend src T c) acc) acc) lang
      = if lang ∈ T then
          dGet acc lang ++ (cs.map (fun c => translateAll backend src lang c)).flatten
        else dGet acc lang := by
  induction cs generalizing acc with
  | nil => by_cases h : lang ∈ T <;> simp [h]
  | cons c cs ih =>
      rw [List.foldl_cons, ih]
      rw [dGet_extendAll hT _
        (fun l hl => find?_process_isSome backend src T c hl)]
      by_cases h : lang ∈ T
      · simp [h, dGet_process, List.append_assoc]
      · simp [h]

lemma dGet_batch_init (T : List String) (lang : String) :
    dGet ((dfirst T).map (fun t => (t, ([] : List String)))) lang = [] := by
  have := dGet_map_entries (dfirst T) (fun _ => []) lang
  by_cases h : lang ∈ dfirst T <;> simpa [h] using this

/-- Whether one S3 read found a document with a non-empty translations
mapping (the poller's break condition). -/
def readNonEmpty : ReadOutcome → Bool
  | ReadOutcome.noSuchKey => false
  | ReadOutcome.doc ts => !ts.isEmpty

lemma pollLoop_timedOut (reads : Nat → ReadOutcome) (a r : Nat)
    (h : ∀ i, i < r → readNonEmpty (reads (a + i)) = false) :
    pollLoop reads a r = PollOutcome.timedOut r := by
  induction r generalizing a with
  | zero => rfl
  | succ r ih =>
      have h0 := h 0 (Nat.succ_pos r)
      have hrec : pollLoop reads (a + 1) r = PollOutcome.timedOut r := by
        refine ih (a + 1) (fun i hi => ?_)
        have := h (i + 1) (Nat.succ_lt_succ hi)
        simpa [Nat.add_assoc, Nat.add_comm 1 i] using this
      cases hread : reads a with
      | noSuchKey =>
          rw [pollLoop]
          simp only [Nat.add_zero] at h0
          rw [hread, hrec]
      | doc ts =>
          have hts : ts.isEmpty = true := by
            simp only [Nat.add_zero] at h0
            rw [hread] at h0
            simpa [readNonEmpty] using h0
          rw [pollLoop, hread]
          simp only [hts, if_pos]
          rw [hrec]

lemma pollLoop_found (reads : Nat → ReadOutcome) (ts : List (String × List String)) :
    ∀ (i a r : Nat), i < r → reads (a + i) = ReadOutcome.doc ts →
    ts.isEmpty = false →
    (∀ j, j < i → readNonEmpty (reads (a + j)) = false) →
    pollLoop reads a r = PollOutcome.found (i + 1) ts := by
  intro i
  induction i with
  | zero =>
      intro a r hr hread hts _
      match r, hr with
      | r + 1, _ =>
        rw [pollLoop]
        simp only [Nat.add_zero] at hread
        rw [hread]
        simp [hts]
  | succ i ih =>
      intro a r hr hread hts hbefore
      match r, hr with
      | r + 1, hr =>
        have h0 := hbefore 0 (Nat.succ_pos i)
        simp only [Nat.add_zero] at h0
        have hrec : pollLoop reads (a + 1) r = PollOutcome.found (i + 1) ts := by
          refine ih (a + 1) r (Nat.lt_of_succ_lt_succ hr) ?_ hts ?_
          · simpa [Nat.add_assoc, Nat.add_comm 1 i] using hread
          · intro j hj
            have := hbefore (j + 1) (Nat.succ_lt_succ hj)
            simpa [Nat.add_assoc, Nat.add_comm 1 j] using this
        cases hreadA : reads a with
        | noSuchKey =>
            rw [pollLoop, hreadA, hrec]
        | doc ts' =>
            have hts' : ts'.isEmpty = true := by
              rw [hreadA] at h0
              simpa [readNonEmpty] using h0
            rw [pollLoop, hreadA]
            simp only [hts', if_pos]
            rw [hrec]

/-! Claim theorems. -/

/-- C1: for every request shape with sentence list `S` and target-language
list `T`, the orchestrator's mapping has exactly the languages of `T` as
keys (no duplicate keys, a key present exactly when the language is in `T`),
each key's sequence has exactly `S.length` entries, and every entry is the
backend's translated text or the explicit error-marker string — never a
missing entry. -/
theorem c1_result_shape (backend : Backend) (src : String) (T S : List String) :
    ((process_translations backend src T S).map Prod.fst).Nodup
    ∧ (∀ lang : String,
        dlookup (process_translations backend src T S) lang
          = if lang ∈ T then some (translateAll backend src lang S) else none)
    ∧ (∀ lang : String, (translateAll backend src lang S).length = S.length)
    ∧ (∀ lang s : String,
        (∃ t, backend src (pyStrip s) lang = Except.ok t
            ∧ translateOne backend src lang s = t)
        ∨ (∃ e, backend src (pyStrip s) lang = Except.error e
            ∧ translateOne backend src lang s = errorMarker e)) := by
  refine ⟨?_, fun lang => dlookup_process backend src T S lang,
    fun lang => List.length_map _ _, fun lang s => ?_⟩
  · rw [process_translations_eq, List.map_map]
    have hc : (Prod.fst ∘ fun t : String =>
        (t, translateAll backend src t S)) = id := rfl
    rw [hc, List.map_id]
    exact nodup_dfirst T
  · cases hb : backend src (pyStrip s) lang with
    | ok t => exact Or.inl ⟨t, rfl, by simp [translateOne, hb]⟩
    | error e => exact Or.inr ⟨e, rfl, by simp [translateOne, hb]⟩

/-- C2: batching equivalence — splitting the sentences into consecutive
chunks of a positive batch size, submitting each chunk to the orchestrator
in order and accumulating the per-language sequences in chunk order yields,
for every language, the same sequence as submitting all sentences as one
request with the same per-(sentence, language) backend outcomes. -/
theorem c2_batching_equivalence (backend : Backend) (src : String)
    (T S : List String) (B : Nat) (hB : 0 < B) (hT : T.Nodup) (lang : String) :
    dGet (translate_in_batches backend src T S B) lang
      = dGet (process_translations backend src T S) lang := by
  rw [translate_in_batches, dGet_foldl_chunks backend src hT, dGet_process]
  by_cases h : lang ∈ T
  · simp only [h, if_pos, dGet_batch_init, List.nil_append]
    show ((chunksOf B S).map
      (fun c => c.map (translateOne backend src lang))).flatten = _
    rw [← List.map_flatten, chunksOf_join hB]
    rfl
  · simp [h, dGet_batch_init]

/-- C2 witness: instantiation at batch size 2, two distinct target
languages, three sentences and the echoing backend. -/
def echoBackend : Backend := fun _ s _ => Except.ok s

theorem c2_batching_equivalence_witness :
    0 < 2 ∧ (["es", "fr"] : List String).Nodup
    ∧ dGet (translate_in_batches echoBackend "en" ["es", "fr"]
        ["one", "two", "three"] 2) "es"
      = dGet (process_translations echoBackend "en" ["es", "fr"]
        ["one", "two", "three"]) "es" :=
  ⟨by decide, by decide,
    c2_batching_equivalence echoBackend "en" ["es", "fr"]
      ["one", "two", "three"] 2 (by decide) (by decide) "es"⟩

/-- C7: after any append the ledger holds at most 100 records, and appending
to a full 100-record ledger drops exactly the oldest record, preserving the
order of the rest and ending with the new record. -/
theorem c7_ledger_cap (history : List HistoryRecord) (record : HistoryRecord) :
    (save_to_history history record).length ≤ 100
    ∧ (history.length = 100 →
        save_to_history history record = history.drop 1 ++ [record]) := by
  constructor
  · rw [save_to_history]
    by_cases h : (history ++ [record]).length > 100
    · simp only [if_pos h, List.length_drop]
      omega
    · rw [if_neg h]
      omega
  · intro h100
    rw [save_to_history]
    have hlen : (history ++ [record]).length = 101 := by
      simp [h100]
    rw [if_pos (by omega), hlen]
    show (history ++ [record]).drop 1 = _
    rw [List.drop_append_of_le_length (by omega)]

/-- C7 witness: appending a 101st record to a concrete 100-record ledger. -/
theorem c7_ledger_cap_witness :
    (List.replicate 100 (HistoryRecord.mk "old" "t0" "en" ["es"] 1)).length = 100
    ∧ save_to_history
        (List.replicate 100 (HistoryRecord.mk "old" "t0" "en" ["es"] 1))
        (HistoryRecord.mk "new" "t1" "en" ["fr"] 2)
      = (List.replicate 100 (HistoryRecord.mk "old" "t0" "en" ["es"] 1)).drop 1
          ++ [HistoryRecord.mk "new" "t1" "en" ["fr"] 2] :=
  ⟨by simp,
    (c7_ledger_cap (List.replicate 100 (HistoryRecord.mk "old" "t0" "en" ["es"] 1))
      (HistoryRecord.mk "new" "t1" "en" ["fr"] 2)).2 (by simp)⟩

/-- C9: the progress interpolation is monotonically non-decreasing in the
elapsed time (for a positive estimate), never exceeds 95, and the completion
assignment — the only way the signal reaches 100 — is the constant 100,
strictly above everything the interpolation can produce. -/
theorem c9_progress_monotone_capped (e1 e2 t : ℚ) (ht : 0 < t) (he : e1 ≤ e2) :
    progressValue e1 t ≤ progressValue e2 t
    ∧ (∀ e est : ℚ, progressValue e est ≤ 95)
    ∧ completionProgress = 100
    ∧ (∀ e est : ℚ, progressValue e est < completionProgress) := by
  refine ⟨?_, fun e est => min_le_left _ _, rfl, fun e est => ?_⟩
  · refine min_le_min le_rfl ?_
    have hdiv : e1 / t ≤ e2 / t := by gcongr
    exact mul_le_mul_of_nonneg_right hdiv (by norm_num)
  · exact lt_of_le_of_lt (min_le_left _ _) (by norm_num [completionProgress])

/-- C10 counterexample: a request that passes validation but whose target
list repeats a language; the success summary counts one generated
translation, not sentence count times target-list length. -/
theorem c10_counterexample :
    validate_input "en" ["es", "es"] ["Hello"] = none
    ∧ translations_generated echoBackend "en" ["es", "es"] ["Hello"] = 1
    ∧ ¬(translations_generated echoBackend "en" ["es", "es"] ["Hello"]
        = (["Hello"] : List String).length * (["es", "es"] : List String).length) := by
  refine ⟨by decide, by decide, by decide⟩

/-- C10 (amended): `translations_generated` equals the sentence count times
the number of distinct target languages, which equals sentence count times
target-list length whenever the target list has no duplicates. -/
theorem c10_translations_generated (backend : Backend) (src : String)
    (T S : List String) :
    translations_generated backend src T S = (dfirst T).length * S.length
    ∧ (T.Nodup →
        translations_generated backend src T S = T.length * S.length) := by
  have h : translations_generated backend src T S
      = (dfirst T).length * S.length := by
    rw [translations_generated, process_translations_eq, List.map_map]
    have hc : ((fun p : String × List String => p.2.length)
        ∘ fun t => (t, translateAll backend src t S)) = fun _ => S.length := by
      funext t
      simp [translateAll]
    rw [hc, List.map_const', List.sum_replicate, smul_eq_mul]
  exact ⟨h, fun hT => by rw [h, dfirst_eq_self hT]⟩

/-- C10 witness: the amended claim at a concrete duplicate-free list. -/
theorem c10_translations_generated_witness :
    (["es", "fr"] : List String).Nodup
    ∧ translations_generated echoBackend "en" ["es", "fr"] ["a", "b", "c"]
        = (["es", "fr"] : List String).length * (["a", "b", "c"] : List String).length :=
  ⟨by decide,
    by rw [(c10_translations_generated echoBackend "en" ["es", "fr"]
        ["a", "b", "c"]).2 (by decide)]⟩

lemma sentenceError_eq_none {s : String} :
    sentenceError s = none ↔ (pyStrip s).length ≠ 0 ∧ s.length ≤ 5000 := by
  rw [sentenceError]
  split_ifs with h1 h2
  · exact iff_of_false (by simp) (fun h => h.1 h1)
  · exact iff_of_false (by simp) (fun h => by omega)
  · exact iff_of_true rfl ⟨h1, by omega⟩

lemma validate_input_eq_none_iff {src : String} {T S : List String} :
    validate_input src T S = none ↔
      (src.length = 2 ∧ T ≠ [] ∧ T.length ≤ 10 ∧ (∀ l ∈ T, l.length = 2)
        ∧ S ≠ [] ∧ S.length ≤ 100
        ∧ ∀ s ∈ S, (pyStrip s).length ≠ 0 ∧ s.length ≤ 5000) := by
  rw [validate_input]
  split_ifs with h1 h2 h3 h4 h5 h6
  · exact iff_of_false (by simp) (fun h => h1 h.1)
  · exact iff_of_false (by simp)
      (fun h => h.2.1 (List.length_eq_zero.mp h2))
  · exact iff_of_false (by simp) (fun h => by omega)
  · refine iff_of_false (by simp) (fun h => ?_)
    obtain ⟨l, hl, hne⟩ := List.any_eq_true.mp h4
    exact bne_iff_ne.mp hne (h.2.2.2.1 l hl)
  · exact iff_of_false (by simp)
      (fun h => h.2.2.2.2.1 (List.length_eq_zero.mp h5))
  · exact iff_of_false (by simp) (fun h => by omega)
  · have hsrc : src.length = 2 := by omega
    have hT : T ≠ [] := fun hh => h2 (by simp [hh])
    have h10 : T.length ≤ 10 := by omega
    have hall : ∀ l ∈ T, l.length = 2 := by
      intro l hl
      by_contra hne
      exact h4 (List.any_eq_true.mpr ⟨l, hl, bne_iff_ne.mpr hne⟩)
    have hS : S ≠ [] := fun hh => h5 (by simp [hh])
    have h100 : S.length ≤ 100 := by omega
    rw [List.findSome?_eq_none_iff]
    constructor
    · intro h
      exact ⟨hsrc, hT, h10, hall, hS, h100,
        fun s hs => sentenceError_eq_none.mp (h s hs)⟩
    · intro h s hs
      exact sentenceError_eq_none.mpr (h.2.2.2.2.2.2 s hs)

/-- C5: the validator accepts exactly the structurally valid requests, and on
an invalid request it returns the message of the first violated rule in
source order — source language format, then the three target-language rules,
then the three sentence rules (with the per-sentence emptiness check before
the per-sentence length check, sentence by sentence); as a pure function it
is deterministic, so equal invalid payloads always produce the same 400
message. -/
theorem c5_validation_first_rule (src : String) (T S : List String) :
    (validate_input src T S = none ↔
      (src.length = 2 ∧ T ≠ [] ∧ T.length ≤ 10 ∧ (∀ l ∈ T, l.length = 2)
        ∧ S ≠ [] ∧ S.length ≤ 100
        ∧ ∀ s ∈ S, (pyStrip s).length ≠ 0 ∧ s.length ≤ 5000))
    ∧ (src.length ≠ 2 →
        validate_input src T S
          = some "Source language must be a 2-character language code")
    ∧ (src.length = 2 → T = [] →
        validate_input src T S = some "Target languages must be a non-empty list")
    ∧ (src.length = 2 → T ≠ [] → T.length > 10 →
        validate_input src T S = some "Maximum 10 target languages allowed")
    ∧ (src.length = 2 → T ≠ [] → T.length ≤ 10 → (∃ l ∈ T, l.length ≠ 2) →
        validate_input src T S
          = some "All target languages must be 2-character language codes")
    ∧ (src.length = 2 → T ≠ [] → T.length ≤ 10 → (∀ l ∈ T, l.length = 2) →
        S = [] →
        validate_input src T S = some "Sentences must be a non-empty list")
    ∧ (src.length = 2 → T ≠ [] → T.length ≤ 10 → (∀ l ∈ T, l.length = 2) →
        S ≠ [] → S.length > 100 →
        validate_input src T S = some "Maximum 100 sentences allowed per request")
    ∧ (src.length = 2 → T ≠ [] → T.length ≤ 10 → (∀ l ∈ T, l.length = 2) →
        S ≠ [] → S.length ≤ 100 →
        validate_input src T S = S.findSome? sentenceError) := by
  have hlen : ∀ L : List String, L ≠ [] → L.length ≠ 0 := by
    intro L hL h0
    exact hL (List.length_eq_zero.mp h0)
  refine ⟨validate_input_eq_none_iff, ?_, ?_, ?_, ?_, ?_, ?_, ?_⟩
  · intro h
    rw [validate_input, if_pos h]
  · intro hsrc hT
    rw [validate_input, if_neg (by omega), if_pos (by simp [hT])]
  · intro hsrc hT h10
    rw [validate_input, if_neg (by omega), if_neg (hlen T hT), if_pos h10]
  · intro hsrc hT h10 hex
    obtain ⟨l, hl, hne⟩ := hex
    have hany : (T.any fun l => l.length != 2) = true :=
      List.any_eq_true.mpr ⟨l, hl, by simpa [bne_iff_ne] using hne⟩
    rw [validate_input, if_neg (by omega), if_neg (hlen T hT),
      if_neg (by omega), if_pos hany]
  · intro hsrc hT h10 hall hS
    have hany : ¬(T.any (fun l => l.length != 2) = true) := by
      simp only [List.any_eq_true, not_exists, not_and]
      intro l hl
      simp [hall l hl]
    rw [validate_input, if_neg (by omega), if_neg (hlen T hT),
      if_neg (by omega), if_neg hany, if_pos (by simp [hS])]
  · intro hsrc hT h10 hall hS h100
    have hany : ¬(T.any (fun l => l.length != 2) = true) := by
      simp only [List.any_eq_true, not_exists, not_and]
      intro l hl
      simp [hall l hl]
    rw [validate_input, if_neg (by omega), if_neg (hlen T hT),
      if_neg (by omega), if_neg hany, if_neg (hlen S hS), if_pos h100]
  · intro hsrc hT h10 hall hS h100
    have hany : ¬(T.any (fun l => l.length != 2) = true) := by
      simp only [List.any_eq_true, not_exists, not_and]
      intro l hl
      simp [hall l hl]
    rw [validate_input, if_neg (by omega), if_neg (hlen T hT),
      if_neg (by omega), if_neg hany, if_neg (hlen S hS), if_neg (by omega)]

/-- C5 witness: concrete valid and invalid payloads, including the rule
order between a bad source language and a bad target list. -/
theorem c5_validation_first_rule_witness :
    validate_input "en" ["es"] ["Hello"] = none
    ∧ validate_input "english" [] ["Hello"]
        = some "Source language must be a 2-character language code"
    ∧ validate_input "en" [] ["Hello"]
        = some "Target languages must be a non-empty list"
    ∧ validate_input "en" ["spanish"] []
        = some "All target languages must be 2-character language codes" :=
  ⟨(c5_validation_first_rule "en" ["es"] ["Hello"]).1.mpr (by decide),
    (c5_validation_first_rule "english" [] ["Hello"]).2.1 (by decide),
    (c5_validation_first_rule "en" [] ["Hello"]).2.2.1 (by decide) rfl,
    (c5_validation_first_rule "en" ["spanish"] []).2.2.2.2.1 (by decide)
      (by decide) (by decide) ⟨"spanish", by decide, by decide⟩⟩

/-- C3: for every request that passes validation, a failing input audit
write leaves the handler's response unchanged (the job still succeeds with a
200 response when the result write succeeds), whereas a failing output
result write makes the handler return the 500 error response instead of
success. -/
theorem c3_storage_failure_policy (backend : Backend)
    (tid inputUrl outputUrl e e' : String) (inputWrite : WriteOutcome)
    (req : TranslationRequest)
    (hv : validate_input req.source_language req.target_languages
      req.sentences = none) :
    (lambda_handler backend tid inputUrl outputUrl (Except.error e)
        (Except.ok ()) req
      = lambda_handler backend tid inputUrl outputUrl (Except.ok ())
        (Except.ok ()) req)
    ∧ (lambda_handler backend tid inputUrl outputUrl inputWrite
        (Except.ok ()) req).statusCode = 200
    ∧ (lambda_handler backend tid inputUrl outputUrl inputWrite
        (Except.ok ()) req).isSuccess = true
    ∧ lambda_handler backend tid inputUrl outputUrl inputWrite
        (Except.error e') req
      = HandlerResult.errorResp 500 "Internal server error" := by
  refine ⟨?_, ?_, ?_, ?_⟩ <;>
    simp [lambda_handler, hv, store_result_in_s3, HandlerResult.statusCode,
      HandlerResult.isSuccess]

/-- C3 witness: concrete request, failing audit write, succeeding and
failing result writes. -/
theorem c3_storage_failure_policy_witness :
    validate_input "en" ["es"] ["Hello"] = none
    ∧ (lambda_handler echoBackend "tid" "inUrl" "outUrl"
        (Except.error "audit down") (Except.ok ())
        (TranslationRequest.mk "en" ["es"] ["Hello"])).statusCode = 200
    ∧ lambda_handler echoBackend "tid" "inUrl" "outUrl"
        (Except.error "audit down") (Except.error "s3 down")
        (TranslationRequest.mk "en" ["es"] ["Hello"])
      = HandlerResult.errorResp 500 "Internal server error" :=
  ⟨by decide,
    (c3_storage_failure_policy echoBackend "tid" "inUrl" "outUrl" "x" "y"
      (Except.error "audit down")
      (TranslationRequest.mk "en" ["es"] ["Hello"]) (by decide)).2.1,
    (c3_storage_failure_policy echoBackend "tid" "inUrl" "outUrl" "x"
      "s3 down" (Except.error "audit down")
      (TranslationRequest.mk "en" ["es"] ["Hello"]) (by decide)).2.2.2⟩

/-- C4: the interactive CLI's poll budget is 30; when no read within the
budget returns a document with a non-empty translations mapping, the poller
performs exactly the budgeted number of reads and yields the timeout
outcome, and when the first non-empty document shows up on read `i` within
the budget, it returns that document immediately after `i + 1` reads. -/
theorem c4_poll_budget_determinism (reads : Nat → ReadOutcome) :
    cliPollBudget = 30
    ∧ ((∀ i, i < cliPollBudget → readNonEmpty (reads i) = false) →
        pollS3 reads cliPollBudget = PollOutcome.timedOut cliPollBudget)
    ∧ (∀ i ts, i < cliPollBudget → reads i = ReadOutcome.doc ts →
        ts.isEmpty = false →
        (∀ j, j < i → readNonEmpty (reads j) = false) →
        pollS3 reads cliPollBudget = PollOutcome.found (i + 1) ts) := by
  refine ⟨rfl, fun h => ?_, fun i ts hi hr hts hb => ?_⟩
  · exact pollLoop_timedOut reads 0 cliPollBudget
      (fun i hi => by simpa using h i hi)
  · exact pollLoop_found reads ts i 0 cliPollBudget hi (by simpa using hr)
      hts (fun j hj => by simpa using hb j hj)

/-- Read sequence that never produces the result document. -/
def readsNeverW : Nat → ReadOutcome := fun _ => ReadOutcome.noSuchKey

/-- Read sequence whose document appears, non-empty, on the fourth read. -/
def readsFoundW : Nat → ReadOutcome := fun i =>
  if i < 3 then ReadOutcome.noSuchKey else ReadOutcome.doc [("es", ["Hola"])]

/-- C4 witness: the poller times out after exactly 30 reads on a
never-appearing document, and returns after 4 reads when the document
appears on the fourth. -/
theorem c4_poll_budget_determinism_witness :
    pollS3 readsNeverW cliPollBudget = PollOutcome.timedOut 30
    ∧ pollS3 readsFoundW cliPollBudget
        = PollOutcome.found 4 [("es", ["Hola"])] :=
  ⟨(c4_poll_budget_determinism readsNeverW).2.1 (by decide),
    (c4_poll_budget_determinism readsFoundW).2.2 3 [("es", ["Hola"])]
      (by decide) (by decide) (by decide) (by decide)⟩

/-- C6: if the backend run differs from a fully-successful run only in that
the single call for the (unique) sentence stripping to `s0` under language
`l0` fails with reason `e`, then every other (sentence, language) position
of the result is exactly what the successful run produces, the failed
position holds the error marker for `e`, and the orchestrator still returns
a complete mapping (every language's sequence keeps full length). -/
theorem c6_partial_failure_isolation (b bfail : Backend) (src : String)
    (T S : List String) (s0 l0 e : String) (i0 : Nat) (hi0 : i0 < S.length)
    (hdiff : ∀ s l, ¬(s = s0 ∧ l = l0) → bfail src s l = b src s l)
    (hfail : bfail src s0 l0 = Except.error e)
    (hs0 : pyStrip (S.get ⟨i0, hi0⟩) = s0)
    (huniq : ∀ j, (hj : j < S.length) → j ≠ i0 →
      pyStrip (S.get ⟨j, hj⟩) ≠ s0) :
    (∀ lang, lang ∈ T → ∀ j, (hj : j < S.length) → ¬(lang = l0 ∧ j = i0) →
      (dGet (process_translations bfail src T S) lang)[j]?
        = (dGet (process_translations b src T S) lang)[j]?)
    ∧ (l0 ∈ T →
        (dGet (process_translations bfail src T S) l0)[i0]?
          = some (errorMarker e))
    ∧ (∀ lang, lang ∈ T →
        (dGet (process_translations bfail src T S) lang).length = S.length) := by
  refine ⟨fun lang hlang j hj hne => ?_, fun hl0 => ?_, fun lang hlang => ?_⟩
  · rw [dGet_process, dGet_process, if_pos hlang, if_pos hlang]
    rw [translateAll, translateAll, List.getElem?_map, List.getElem?_map]
    rw [List.getElem?_eq_getElem hj]
    have hbeq : bfail src (pyStrip (S.get ⟨j, hj⟩)) lang
        = b src (pyStrip (S.get ⟨j, hj⟩)) lang := by
      refine hdiff _ _ (fun hcontra => ?_)
      rcases hcontra with ⟨hstrip, hlangeq⟩
      by_cases hji : j = i0
      · exact hne ⟨hlangeq, hji⟩
      · exact huniq j hj hji hstrip
    simp only [Option.map_some']
    rw [translateOne, translateOne]
    simp only [List.get_eq_getElem] at hbeq
    rw [hbeq]
  · rw [dGet_process, if_pos hl0, translateAll, List.getElem?_map,
      List.getElem?_eq_getElem hi0]
    simp only [Option.map_some']
    rw [translateOne]
    simp only [List.get_eq_getElem] at hs0
    rw [hs0, hfail]
  · rw [dGet_process, if_pos hlang, translateAll, List.length_map]

/-- Fully successful backend for the C6 witness. -/
def okBackendW : Backend := fun _ s l => Except.ok (s ++ ":" ++ l)

/-- Backend failing exactly on the pair ("boom", "es"). -/
def failBackendW : Backend := fun _ s l =>
  if s = "boom" ∧ l = "es" then Except.error "backend down"
  else Except.ok (s ++ ":" ++ l)

/-- C6 witness: a two-sentence, two-language request whose only failing call
is sentence 0 under "es"; every other position agrees with the successful
run and the failed position carries the marker. -/
theorem c6_partial_failure_isolation_witness :
    (dGet (process_translations failBackendW "en" ["es", "fr"]
      ["boom", "hi"]) "fr")[0]?
      = (dGet (process_translations okBackendW "en" ["es", "fr"]
        ["boom", "hi"]) "fr")[0]?
    ∧ (dGet (process_translations failBackendW "en" ["es", "fr"]
        ["boom", "hi"]) "es")[0]? = some (errorMarker "backend down") :=
  ⟨(c6_partial_failure_isolation okBackendW failBackendW "en" ["es", "fr"]
      ["boom", "hi"] "boom" "es" "backend down" 0 (by decide)
      (fun s l h => by
        show (if s = "boom" ∧ l = "es" then Except.error "backend down"
          else Except.ok (s ++ ":" ++ l)) = Except.ok (s ++ ":" ++ l)
        rw [if_neg h])
      (by rfl) (by decide)
      (by decide)).1 "fr" (by decide) 0 (by decide) (by decide),
    (c6_partial_failure_isolation okBackendW failBackendW "en" ["es", "fr"]
      ["boom", "hi"] "boom" "es" "backend down" 0 (by decide)
      (fun s l h => by
        show (if s = "boom" ∧ l = "es" then Except.error "backend down"
          else Except.ok (s ++ ":" ++ l)) = Except.ok (s ++ ":" ++ l)
        rw [if_neg h])
      (by rfl) (by decide)
      (by decide)).2.1 (by decide)⟩

/-- C8 (amended): the ledger lookup scans the history in stored (append)
order and returns the earliest — oldest — record whose job id starts with
the given string, or none when no record matches. -/
theorem c8_lookup_earliest_match (history : List HistoryRecord) (pre : String) :
    lookup_translation history pre
      = (history.filter
          (fun r => pyStartsWith r.translation_id pre)).head? := by
  induction history with
  | nil => rfl
  | cons r rest ih =>
      rw [lookup_translation] at ih ⊢
      by_cases h : (fun x : HistoryRecord => pyStartsWith x.translation_id pre) r
          = true
      · have hb : pyStartsWith r.translation_id pre = true := h
        rw [List.find?_cons_of_pos rest h]
        simp [List.filter_cons, hb]
      · have hb : pyStartsWith r.translation_id pre = false :=
          Bool.eq_false_iff.mpr h
        rw [List.find?_cons_of_neg rest h]
        rw [List.filter_cons, hb]
        simp only [Bool.false_eq_true, if_false]
        exact ih

/-- Older ledger record whose job id starts with "abc". -/
def recOlderW : HistoryRecord :=
  HistoryRecord.mk "abc1-older" "2024-01-01T00:00:00" "en" ["es"] 1

/-- Newer ledger record whose job id also starts with "abc". -/
def recNewerW : HistoryRecord :=
  HistoryRecord.mk "abc2-newer" "2024-01-02T00:00:00" "en" ["es"] 1

/-- C8 counterexample: with two matching records in append order, the most
recent match is the newer record, but the code's lookup returns the older
one. -/
theorem c8_counterexample :
    mostRecentMatch [recOlderW, recNewerW] "abc" = some recNewerW
    ∧ lookup_translation [recOlderW, recNewerW] "abc" = some recOlderW
    ∧ recOlderW ≠ recNewerW :=
  ⟨by decide, by decide, by decide⟩

/-- C9 witness: the progress interpolation at elapsed times 2 and 3 of a
10-second estimate. -/
theorem c9_progress_monotone_capped_witness :
    (0 : ℚ) < 10 ∧ (2 : ℚ) ≤ 3
    ∧ progressValue 2 10 ≤ progressValue 3 10 :=
  ⟨by norm_num, by norm_num,
    (c9_progress_monotone_capped 2 3 10 (by norm_num) (by norm_num)).1⟩

end Translator
